import Mathlib

/-!
# Verification of the astropop reduction-pipeline specification

A shallow embedding of the data model and operations of the astropop
pipeline (FITS file grouping, frame data, arithmetic processing
operators, statistical combination, registration, FITS round-trips and
master-calibration provenance), together with theorems settling the
specification claims.  The Python implementation of these components is
not part of the supplied sources; where that is the case the
definitions are modelled directly from the specification text, as noted
in their doc comments.  The SkyMapper SMSS DR4 VizieR catalog
configuration is embedded verbatim from
`astropop/catalogs/vizier_catalogs/ucac4.yml`.
-/

/-- Modelled from the spec: `FrameData`, the in-memory representation of a
calibrated image: pixel array (flattened to a list), boolean mask of the
same shape, physical unit, and key-value header.  (The Python class
`astropop.framedata.FrameData` is not among the supplied sources.) -/
structure FrameData where
  data : List ℚ
  mask : List Bool
  unit : String
  header : List (String × String)
deriving DecidableEq

/-- Modelled from the spec: one FITS file of a `FitsFileGroup`: its path
and its cached header index. -/
structure FitsEntry where
  path : String
  header : List (String × String)
deriving DecidableEq

/-- The value a FITS header associates to a keyword, if any. -/
def FitsEntry.headerValue (f : FitsEntry) (k : String) : Option String :=
  f.header.lookup k

/-- Modelled from the spec: `FitsFileGroup`, an ordered collection of FITS
files plus cached header index.  (The Python class
`astropop.file_collection.FitsFileGroup` is not among the supplied
sources.) -/
structure FitsFileGroup where
  files : List FitsEntry
deriving DecidableEq

/-- Modelled from the spec: `filtered(keyword_equality_map)` returns the
subset of the group whose header keys match all given values. -/
def FitsFileGroup.filtered (g : FitsFileGroup) (m : List (String × String)) :
    FitsFileGroup :=
  ⟨g.files.filter fun f => m.all fun kv => f.headerValue kv.1 == some kv.2⟩

/-- C1: a file belongs to `g.filtered m` exactly when it belongs to `g` and
its header value for every key of `m` equals the value `m` prescribes;
in particular any file whose header value differs for some key of `m`
is excluded. -/
theorem filtered_mem_iff (g : FitsFileGroup) (m : List (String × String))
    (f : FitsEntry) :
    f ∈ (g.filtered m).files ↔
      f ∈ g.files ∧ ∀ kv ∈ m, f.headerValue kv.1 = some kv.2 := by
  simp [FitsFileGroup.filtered, List.mem_filter, List.all_eq_true]

/-- Modelled from the spec: the reduction modes of the combiner
(`ImCombiner`): mean, median and sum, each pixel-wise across the stack. -/
inductive CombineMethod
  | mean
  | median
  | sum
deriving DecidableEq

/-- The values of the pixels at flat position `i` across the stack,
keeping only the frames whose mask does not flag that pixel: masked
pixels are excluded from the reduction at that pixel. -/
def valuesAt (frames : List FrameData) (i : ℕ) : List ℚ :=
  frames.filterMap fun f =>
    if f.mask.getD i true then none else some (f.data.getD i 0)

/-- How many frames of the stack mask pixel `i`. -/
def maskedCount (frames : List FrameData) (i : ℕ) : ℕ :=
  (frames.filter fun f => f.mask.getD i true).length

/-- The fraction of the stack that masks pixel `i`. -/
def maskedFraction (frames : List FrameData) (i : ℕ) : ℚ :=
  if frames.length = 0 then 0
  else (maskedCount frames i : ℚ) / (frames.length : ℚ)

/-- The median of a list of rationals: sort, then take the middle element
(or the average of the two middle elements for even length). -/
def listMedian (l : List ℚ) : ℚ :=
  let s := l.mergeSort fun a b => a ≤ b
  if s.length = 0 then 0
  else if s.length % 2 = 1 then s.getD (s.length / 2) 0
  else (s.getD (s.length / 2 - 1) 0 + s.getD (s.length / 2) 0) / 2

/-- Pixel-wise reduction of the surviving values under a combine method. -/
def reduceWith : CombineMethod → List ℚ → ℚ
  | .sum, l => l.sum
  | .mean, l => if l.length = 0 then 0 else l.sum / (l.length : ℚ)
  | .median, l => listMedian l

/-- Modelled from the spec: the combiner.  It stacks an ordered sequence of
same-shape frames pixel-wise under the chosen reduction mode, excluding
masked pixels from the reduction at each pixel; the output mask is true
where the fraction of masked inputs exceeds the configurable
`threshold`.  (The Python class
`astropop.image_processing.imarith.ImCombiner` is not among the
supplied sources.) -/
def combine (m : CombineMethod) (frames : List FrameData) (threshold : ℚ) :
    FrameData :=
  let n := (frames.head?.map fun f => f.data.length).getD 0
  { data := (List.range n).map fun i => reduceWith m (valuesAt frames i)
    mask := (List.range n).map fun i => decide (threshold < maskedFraction frames i)
    unit := (frames.head?.map fun f => f.unit).getD ""
    header := (frames.head?.map fun f => f.header).getD [] }

lemma valuesAt_replicate (N : ℕ) (F : FrameData) (i : ℕ) :
    valuesAt (List.replicate N F) i =
      if F.mask.getD i true then [] else List.replicate N (F.data.getD i 0) := by
  unfold valuesAt
  cases h : F.mask.getD i true <;>
    simp only [List.filterMap_replicate, h] <;> simp

lemma maskedCount_replicate (N : ℕ) (F : FrameData) (i : ℕ) :
    maskedCount (List.replicate N F) i =
      if F.mask.getD i true then N else 0 := by
  unfold maskedCount
  cases h : F.mask.getD i true <;>
    simp only [List.filter_replicate, h] <;> simp

lemma maskedFraction_replicate (N : ℕ) (F : FrameData) (i : ℕ) (hN : 0 < N) :
    maskedFraction (List.replicate N F) i =
      if F.mask.getD i true then 1 else 0 := by
  unfold maskedFraction
  rw [maskedCount_replicate]
  cases h : F.mask.getD i true <;>
    simp [List.length_replicate, hN.ne', div_self (a := (N : ℚ))]

lemma listMedian_replicate (N : ℕ) (v : ℚ) (hN : 0 < N) :
    listMedian (List.replicate N v) = v := by
  unfold listMedian
  rw [List.mergeSort_of_sorted (List.pairwise_replicate.mpr (Or.inr (by simp)))]
  have hlt : N / 2 < N := Nat.div_lt_self hN (by norm_num)
  have hlt' : N / 2 - 1 < N := lt_of_le_of_lt (Nat.sub_le _ _) hlt
  simp only [List.length_replicate, List.getD_eq_getElem?_getD,
    List.getElem?_replicate, if_pos hlt, if_pos hlt', hN.ne', if_false]
  split
  · rfl
  · exact add_self_div_two v

lemma combine_replicate_mask (m : CombineMethod) (N : ℕ) (F : FrameData)
    (t : ℚ) (hN : 0 < N) (ht0 : 0 ≤ t) (ht1 : t < 1)
    (hm : F.mask.length = F.data.length) :
    (combine m (List.replicate N F) t).mask = F.mask := by
  obtain ⟨n, rfl⟩ : ∃ n, N = n + 1 := ⟨N - 1, by omega⟩
  unfold combine
  simp only [List.replicate_succ, List.head?_cons, Option.map_some',
    Option.getD_some, ← List.replicate_succ]
  apply List.ext_getElem
  · simpa using hm.symm
  · intro i h1 h2
    simp only [List.getElem_map, List.getElem_range]
    rw [maskedFraction_replicate _ _ _ hN]
    have hgd : F.mask.getD i true = F.mask[i] := by
      rw [List.getD_eq_getElem?_getD, List.getElem?_eq_getElem h2, Option.getD_some]
    rw [hgd]
    cases hb : F.mask[i]
    · simp [not_lt.mpr ht0]
    · simp [ht1]

lemma combine_replicate_data (m : CombineMethod) (N : ℕ) (F : FrameData)
    (t : ℚ) (hN : 0 < N) (i : ℕ) (hi : i < F.data.length) :
    (combine m (List.replicate N F) t).data.getD i 0
      = reduceWith m (valuesAt (List.replicate N F) i) := by
  obtain ⟨n, rfl⟩ : ∃ n, N = n + 1 := ⟨N - 1, by omega⟩
  unfold combine
  simp only [List.replicate_succ, List.head?_cons, Option.map_some',
    Option.getD_some, ← List.replicate_succ]
  rw [List.getD_eq_getElem?_getD,
    List.getElem?_eq_getElem (by simpa using hi), Option.getD_some]
  simp only [List.getElem_map, List.getElem_range]

lemma combine_replicate_data_unmasked (m : CombineMethod) (N : ℕ)
    (F : FrameData) (t : ℚ) (hN : 0 < N) (i : ℕ) (hi : i < F.data.length)
    (hmask : F.mask.getD i true = false) :
    (combine m (List.replicate N F) t).data.getD i 0
      = reduceWith m (List.replicate N (F.data.getD i 0)) := by
  rw [combine_replicate_data m N F t hN i hi, valuesAt_replicate, hmask]
  simp

/-- C2: combining a stack of N copies of a frame F (N > 0, for any mask
threshold strictly between 0 inclusive and 1 exclusive) preserves F's
mask, and at every unmasked pixel the sum method yields N times F's
value while the mean and median methods yield F's value itself; masked
pixels are excluded from the reduction at each pixel. -/
theorem combine_replicate_scaling (N : ℕ) (F : FrameData) (t : ℚ)
    (hN : 0 < N) (ht0 : 0 ≤ t) (ht1 : t < 1)
    (hm : F.mask.length = F.data.length) :
    ((combine .sum (List.replicate N F) t).mask = F.mask ∧
      ∀ i, i < F.data.length → F.mask.getD i true = false →
        (combine .sum (List.replicate N F) t).data.getD i 0
          = (N : ℚ) * F.data.getD i 0) ∧
    ((combine .mean (List.replicate N F) t).mask = F.mask ∧
      ∀ i, i < F.data.length → F.mask.getD i true = false →
        (combine .mean (List.replicate N F) t).data.getD i 0
          = F.data.getD i 0) ∧
    ((combine .median (List.replicate N F) t).mask = F.mask ∧
      ∀ i, i < F.data.length → F.mask.getD i true = false →
        (combine .median (List.replicate N F) t).data.getD i 0
          = F.data.getD i 0) := by
  refine ⟨⟨combine_replicate_mask _ N F t hN ht0 ht1 hm, fun i hi hmask => ?_⟩,
          ⟨combine_replicate_mask _ N F t hN ht0 ht1 hm, fun i hi hmask => ?_⟩,
          ⟨combine_replicate_mask _ N F t hN ht0 ht1 hm, fun i hi hmask => ?_⟩⟩
  · rw [combine_replicate_data_unmasked _ N F t hN i hi hmask]
    simp [reduceWith, List.sum_replicate, nsmul_eq_mul]
  · rw [combine_replicate_data_unmasked _ N F t hN i hi hmask]
    simp only [reduceWith, List.sum_replicate, List.length_replicate,
      nsmul_eq_mul, hN.ne', if_false]
    exact mul_div_cancel_left₀ _ (Nat.cast_ne_zero.mpr hN.ne')
  · rw [combine_replicate_data_unmasked _ N F t hN i hi hmask]
    exact listMedian_replicate N _ hN

/-- A small concrete frame used to instantiate theorems with hypotheses. -/
def exFrame : FrameData :=
  { data := [3, 7], mask := [false, true], unit := "adu", header := [("OBSTYPE", "BIAS")] }

theorem combine_replicate_scaling_witness :
    (combine .sum (List.replicate 2 exFrame) 0).mask = exFrame.mask ∧
    (combine .sum (List.replicate 2 exFrame) 0).data.getD 0 0
      = (2 : ℚ) * exFrame.data.getD 0 0 ∧
    (combine .mean (List.replicate 2 exFrame) 0).data.getD 0 0
      = exFrame.data.getD 0 0 ∧
    (combine .median (List.replicate 2 exFrame) 0).data.getD 0 0
      = exFrame.data.getD 0 0 := by
  have h := combine_replicate_scaling 2 exFrame 0 (by decide) (le_refl 0)
    zero_lt_one (by decide)
  exact ⟨h.1.1, h.1.2 0 (by decide) (by decide),
    h.2.1.2 0 (by decide) (by decide), h.2.2.2 0 (by decide) (by decide)⟩

/-- C8: the combiner is deterministic: two runs on equal frame lists with
equal reduction modes and equal mask thresholds produce identical output
frames — the same pixel data and the same mask. -/
theorem combine_deterministic (m₁ m₂ : CombineMethod)
    (fs₁ fs₂ : List FrameData) (t₁ t₂ : ℚ)
    (hm : m₁ = m₂) (hf : fs₁ = fs₂) (ht : t₁ = t₂) :
    (combine m₁ fs₁ t₁).data = (combine m₂ fs₂ t₂).data ∧
    (combine m₁ fs₁ t₁).mask = (combine m₂ fs₂ t₂).mask := by
  subst hm hf ht
  exact ⟨rfl, rfl⟩

theorem combine_deterministic_witness :
    (combine .mean [exFrame] 0).data = (combine .mean [exFrame] 0).data ∧
    (combine .mean [exFrame] 0).mask = (combine .mean [exFrame] 0).mask :=
  combine_deterministic .mean .mean [exFrame] [exFrame] 0 0 rfl rfl rfl

/-- Modelled from the spec: the typed failures of the pipeline — missing
header keyword, shape mismatch between frames, unit incompatibility,
insufficient common sources for registration, plate-solving failure. -/
inductive ProcessingError
  | missingKeyword
  | shapeMismatch
  | unitMismatch
  | alignmentError
  | plateSolveError
deriving DecidableEq

/-- The pixel-wise arithmetic operations of the processing operators
(bias subtraction, flat division, and the like). -/
inductive ArithOp
  | add
  | sub
  | mul
  | div
deriving DecidableEq

/-- Apply an arithmetic operation to two pixel values. -/
def ArithOp.apply : ArithOp → ℚ → ℚ → ℚ
  | .add, a, b => a + b
  | .sub, a, b => a - b
  | .mul, a, b => a * b
  | .div, a, b => a / b

/-- Modelled from the spec: the arithmetic combination of two frames used
by the processing operators (e.g. bias subtraction, flat division).  It
validates unit compatibility before the arithmetic combination and
fails with a unit-mismatch error otherwise; it then validates the
shapes, and only then combines pixel-wise, propagating the masks.  (The
Python function `astropop.image_processing.imarith.imarith` is not
among the supplied sources.) -/
def imarith (f g : FrameData) (op : ArithOp) :
    Except ProcessingError FrameData :=
  if f.unit ≠ g.unit then .error .unitMismatch
  else if f.data.length ≠ g.data.length then .error .shapeMismatch
  else .ok { data := List.zipWith op.apply f.data g.data
             mask := List.zipWith (fun a b => a || b) f.mask g.mask
             unit := f.unit
             header := f.header }

/-- C4: whenever the calibration frame's unit differs from the science
frame's unit, a processing operator's arithmetic combination fails with
the unit-mismatch error, for every arithmetic operation; and an
arithmetic combination only succeeds when the units are equal. -/
theorem imarith_unit_mismatch (f g : FrameData) (op : ArithOp)
    (h : f.unit ≠ g.unit) :
    imarith f g op = .error .unitMismatch ∧
      ∀ r, imarith f g op ≠ .ok r := by
  refine ⟨by simp [imarith, h], fun r hr => ?_⟩
  simp [imarith, h] at hr

/-- A calibration frame in a unit different from `exFrame`'s. -/
def exFrameElectron : FrameData :=
  { data := [3, 7], mask := [false, false], unit := "electron", header := [] }

theorem imarith_unit_mismatch_witness :
    exFrame.unit ≠ exFrameElectron.unit ∧
    imarith exFrame exFrameElectron .sub = .error .unitMismatch :=
  ⟨by decide, (imarith_unit_mismatch exFrame exFrameElectron .sub (by decide)).1⟩

/-- Modelled from the spec: the registry of live frames a processing run
holds (science frame, master bias, master flat, ...), keyed by name.
Mutation of a frame in place is modelled as replacing the value stored
under its key. -/
abbrev FrameStore := List (String × FrameData)

/-- Modelled from the spec: a processing operator invoked in place on the
frame stored under `target`, reading the calibration frame stored under
`calib`: the target's entry is replaced by the arithmetic combination
(left unchanged when the combination fails), and nothing else is
touched. -/
def applyInPlace (s : FrameStore) (target calib : String) (op : ArithOp) :
    FrameStore :=
  match s.lookup target, s.lookup calib with
  | some ft, some fc =>
      s.map fun p => if p.1 = target then (p.1, ((imarith ft fc op).toOption).getD ft) else p
  | _, _ => s

lemma lookup_map_if (s : List (String × FrameData)) (target k : String)
    (new : FrameData) (hk : k ≠ target) :
    (s.map fun p => if p.1 = target then (p.1, new) else p).lookup k
      = s.lookup k := by
  induction s with
  | nil => rfl
  | cons a rest ih =>
    obtain ⟨ak, av⟩ := a
    simp only [List.map_cons]
    by_cases ha : ak = target
    · subst ha
      have hbe : (k == ak) = false := beq_eq_false_iff_ne.mpr hk
      have hhd : (if (ak, av).1 = ak then ((ak, av).1, new) else (ak, av))
          = (ak, new) := by simp
      rw [hhd]
      simp [List.lookup, hbe, ih]
    · simp only [if_neg ha]
      cases hbe : (k == ak) <;> simp [List.lookup, hbe, ih]

/-- C6: the side effects of an in-place processing operator are confined
to the frame it is applied to: every other entry of the frame store —
in particular the master bias or master flat passed as the calibration
argument — is left unchanged by the call. -/
theorem applyInPlace_other_unchanged (s : FrameStore) (target calib : String)
    (op : ArithOp) (k : String) (hk : k ≠ target) :
    (applyInPlace s target calib op).lookup k = s.lookup k := by
  unfold applyInPlace
  cases h1 : s.lookup target with
  | none => rfl
  | some ft =>
    cases h2 : s.lookup calib with
    | none => rfl
    | some fc => exact lookup_map_if s target k _ hk

/-- A concrete frame store holding a science frame and a master bias. -/
def exStore : FrameStore :=
  [("science", exFrame),
   ("masterbias", { data := [1, 1], mask := [false, false], unit := "adu",
                    header := [] })]

theorem applyInPlace_other_unchanged_witness :
    "masterbias" ≠ "science" ∧
    (applyInPlace exStore "science" "masterbias" .sub).lookup "masterbias"
      = exStore.lookup "masterbias" :=
  ⟨by decide,
   applyInPlace_other_unchanged exStore "science" "masterbias" .sub
     "masterbias" (by decide)⟩

/-- Modelled from the spec: one header-data unit of a FITS file: extension
name, image payload, boolean payload (for mask extensions), header
cards and the unit card. -/
structure FitsHDU where
  name : String
  image : List ℚ
  boolImage : List Bool
  cards : List (String × String)
  unitCard : String
deriving DecidableEq

/-- The empty header-data unit. -/
def emptyHDU : FitsHDU :=
  { name := "", image := [], boolImage := [], cards := [], unitCard := "" }

/-- Modelled from the spec: writing a FrameData to a FITS file: the pixel
array, header and unit go to the primary HDU and the mask to a
dedicated mask extension. -/
def writeFits (f : FrameData) : List FitsHDU :=
  [{ name := "PRIMARY", image := f.data, boolImage := [],
     cards := f.header, unitCard := f.unit },
   { name := "MASK", image := [], boolImage := f.mask,
     cards := [], unitCard := "" }]

/-- Modelled from the spec: re-reading a FITS file into a FrameData: the
pixel array, header and unit come from the primary HDU and the mask
from the mask extension, when present. -/
def readFits (file : List FitsHDU) : FrameData :=
  let primary := file.headD emptyHDU
  { data := primary.image
    mask := ((file.find? fun h => h.name == "MASK").map fun h => h.boolImage).getD []
    unit := primary.unitCard
    header := primary.cards }

/-- C5: the write/read round-trip is the identity on a FrameData's pixel
values, mask and header keys (indeed on the header values and unit as
well). -/
theorem fits_roundtrip (F : FrameData) :
    (readFits (writeFits F)).data = F.data ∧
    (readFits (writeFits F)).mask = F.mask ∧
    (readFits (writeFits F)).header.map Prod.fst = F.header.map Prod.fst ∧
    readFits (writeFits F) = F := by
  refine ⟨rfl, rfl, rfl, rfl⟩

/-- Modelled from the spec: the two kinds of master calibration frames the
pipeline writes. -/
inductive MasterType
  | bias
  | flat
deriving DecidableEq

/-- The provenance value recording which kind of master frame a file is. -/
def MasterType.keyName : MasterType → String
  | .bias => "BIAS"
  | .flat => "FLAT"

/-- Modelled from the spec: the custom provenance metadata key (the
"master type" key) the pipeline writes into master calibration files. -/
def masterTypeKeyword : String := "mastertype"

/-- Set a header key to a value, replacing any previous occurrence. -/
def headerSet (h : List (String × String)) (k v : String) :
    List (String × String) :=
  (k, v) :: h.filter fun p => p.1 ≠ k

/-- Modelled from the spec: building a master calibration frame: combine
the input frames and record the master type under the provenance
keyword. -/
def makeMaster (ty : MasterType) (m : CombineMethod)
    (frames : List FrameData) (thr : ℚ) : FrameData :=
  let c := combine m frames thr
  { c with header := headerSet c.header masterTypeKeyword ty.keyName }

/-- Modelled from the spec: the master calibration FITS file the pipeline
writes for a stack of input frames. -/
def writeMaster (ty : MasterType) (m : CombineMethod)
    (frames : List FrameData) (thr : ℚ) : List FitsHDU :=
  writeFits (makeMaster ty m frames thr)

/-- C7: every master calibration FITS file written by the pipeline —
master bias and master flat alike, for any reduction mode, input stack
and threshold — carries the "master type" provenance key in its primary
header, recording which kind of master frame it is. -/
theorem writeMaster_records_type (ty : MasterType) (m : CombineMethod)
    (frames : List FrameData) (thr : ℚ) :
    ((writeMaster ty m frames thr).headD emptyHDU).cards.lookup
        masterTypeKeyword = some ty.keyName := by
  simp [writeMaster, writeFits, makeMaster, headerSet, List.lookup]

/-- Modelled from the spec: the two selectable registration algorithms. -/
inductive RegistrationAlgorithm
  | crossCorrelation
  | asterism
deriving DecidableEq

/-- The degrees of freedom of the geometric transform a registration
algorithm estimates. -/
structure TransformModel where
  estimatesTranslation : Bool
  estimatesRotation : Bool
  estimatesScale : Bool
deriving DecidableEq

/-- Modelled from the spec: frequency-domain cross-correlation estimates
integer/sub-pixel translation only; asterism matching estimates
translation plus rotation plus scale. -/
def RegistrationAlgorithm.model : RegistrationAlgorithm → TransformModel
  | .crossCorrelation =>
      { estimatesTranslation := true, estimatesRotation := false,
        estimatesScale := false }
  | .asterism =>
      { estimatesTranslation := true, estimatesRotation := true,
        estimatesScale := true }

/-- C3: the registration component offers exactly two distinct selectable
algorithms — cross-correlation, whose model estimates translation only,
and asterism matching, whose model estimates translation, rotation and
scale. -/
theorem registration_two_algorithms :
    (∀ a : RegistrationAlgorithm,
        a = .crossCorrelation ∨ a = .asterism) ∧
    RegistrationAlgorithm.crossCorrelation ≠ RegistrationAlgorithm.asterism ∧
    RegistrationAlgorithm.model .crossCorrelation
      = { estimatesTranslation := true, estimatesRotation := false,
          estimatesScale := false } ∧
    RegistrationAlgorithm.model .asterism
      = { estimatesTranslation := true, estimatesRotation := true,
          estimatesScale := true } :=
  ⟨fun a => by cases a <;> simp, by decide, rfl, rfl⟩

/-- Substitute every occurrence of the band placeholder (an opening brace,
the word band, a closing brace) in a character list by the replacement
band name, as Python string formatting does on these templates. -/
def substBand (repl : String) : List Char → List Char
  | '\x7b' :: 'b' :: 'a' :: 'n' :: 'd' :: '\x7d' :: rest =>
      repl.data ++ substBand repl rest
  | c :: rest => c :: substBand repl rest
  | [] => []

/-- Instantiate a column-name template at a band name. -/
def instantiateBand (template band : String) : String :=
  ⟨substBand band template.data⟩

/-- The VizieR table name of the SkyMapper SMSS DR4 configuration in
`astropop/catalogs/vizier_catalogs/ucac4.yml`. -/
def smssdr4_table : String := "II/379/smssdr4"

/-- The queried-columns list of the SMSS DR4 configuration, embedded
verbatim from the YAML source. -/
def smssdr4_columns : List String :=
  ["+_r", "SMSS", "RAICRS", "DEICRS", "EpMean",
   "ObjectId", "flags", "ClassStar",
   "uPSF", "e_uPSF", "vPSF", "e_vPSF",
   "gPSF", "e_gPSF", "rPSf", "e_rPSF",
   "iPSF", "e_iPSF", "zPSF", "e_zPSF"]

/-- The band names of the `available_filters` map of the SMSS DR4
configuration. -/
def smssdr4_available_filters : List String :=
  ["u", "v", "g", "r", "i", "z"]

/-- The `mag_column` template of the SMSS DR4 configuration. -/
def smssdr4_mag_column : String := "\x7bband\x7dPSF"

/-- The `err_mag_column` template of the SMSS DR4 configuration. -/
def smssdr4_err_mag_column : String := "e_\x7bband\x7dPSF"

/-- C9: in the SMSS DR4 configuration the invariant fails at band r: the
instantiated magnitude column rPSF does not occur in the queried
columns (the list carries the misspelling rPSf instead), while the
error column e_rPSF does occur; for every other available band both
instantiated columns occur verbatim. -/
theorem smssdr4_r_mag_column_missing :
    "r" ∈ smssdr4_available_filters ∧
    instantiateBand smssdr4_mag_column "r" = "rPSF" ∧
    "rPSF" ∉ smssdr4_columns ∧
    "rPSf" ∈ smssdr4_columns ∧
    instantiateBand smssdr4_err_mag_column "r" = "e_rPSF" ∧
    "e_rPSF" ∈ smssdr4_columns ∧
    instantiateBand smssdr4_mag_column "u" ∈ smssdr4_columns ∧
    instantiateBand smssdr4_err_mag_column "u" ∈ smssdr4_columns ∧
    instantiateBand smssdr4_mag_column "v" ∈ smssdr4_columns ∧
    instantiateBand smssdr4_err_mag_column "v" ∈ smssdr4_columns ∧
    instantiateBand smssdr4_mag_column "g" ∈ smssdr4_columns ∧
    instantiateBand smssdr4_err_mag_column "g" ∈ smssdr4_columns ∧
    instantiateBand smssdr4_mag_column "i" ∈ smssdr4_columns ∧
    instantiateBand smssdr4_err_mag_column "i" ∈ smssdr4_columns ∧
    instantiateBand smssdr4_mag_column "z" ∈ smssdr4_columns ∧
    instantiateBand smssdr4_err_mag_column "z" ∈ smssdr4_columns := by
  decide

/-- A concrete FITS entry and group instantiating the filtering theorem. -/
def exEntry : FitsEntry :=
  { path := "bias_0001.fits", header := [("obstype", "BIAS")] }

/-- A concrete group holding a bias entry and a science entry. -/
def exGroup : FitsFileGroup :=
  ⟨[exEntry, { path := "hd5980_0001.fits",
               header := [("obstype", "SCIENCE"), ("object", "HD5980")] }]⟩

theorem filtered_mem_iff_witness :
    exEntry ∈ (exGroup.filtered [("obstype", "BIAS")]).files :=
  (filtered_mem_iff exGroup [("obstype", "BIAS")] exEntry).mpr
    ⟨by decide, by decide⟩

theorem fits_roundtrip_witness :
    (readFits (writeFits exFrame)).data = exFrame.data ∧
    (readFits (writeFits exFrame)).mask = exFrame.mask ∧
    (readFits (writeFits exFrame)).header.map Prod.fst
      = exFrame.header.map Prod.fst ∧
    readFits (writeFits exFrame) = exFrame :=
  fits_roundtrip exFrame

theorem writeMaster_records_type_witness :
    ((writeMaster .bias .median [exFrame] 0).headD emptyHDU).cards.lookup
        masterTypeKeyword = some MasterType.bias.keyName :=
  writeMaster_records_type .bias .median [exFrame] 0
